import Mathlib

/-!
Verification of the kooper reconciliation-controller engine's specification.

The repository ships the specification (README and an example program,
`examples/controller-concurrency-handling-example/main.go`); the engine
itself (work queue, worker pool, resync, leader election, controller
lifecycle) is described by the specification.  The definitions below embed:

* the work queue / worker pool state machine (deduplicating queue of
  `QueueItem`s with retry counters and backoff timestamps, plus worker
  slots) — modelled from the spec, sections 3, 4.2 and 4.4;
* the controller run-state machine — modelled from the spec, sections 3
  and 4.6;
* construction-time validation of the configuration — modelled from the
  spec, sections 4.6 and 7;
* the event data model and handler dispatch — modelled from the spec,
  section 3, matching the `HandlerFunc` shape used by the example;
* the leader-election gate for two instances — modelled from the spec,
  section 4.5;
* the example program's flag coercion and Kubernetes-configuration
  fallback, embedded directly from `main.go`.
-/

namespace Kooper

/-- A resource key: opaque identifier, conventionally `namespace/name`. -/
abbrev ResourceKey := String

/-- Modelled from the spec: a QueueItem is a ResourceKey plus a retry
counter (0 initially) and a not-before timestamp used for backoff. -/
structure QueueItem where
  key : ResourceKey
  retries : Nat
  notBefore : Nat
deriving DecidableEq, Repr

/-- Configuration knobs of the engine that the queue model needs:
the retry budget and the backoff base and cap. -/
structure KConfig where
  maxRetries : Nat
  baseDelay : Nat
  maxDelay : Nat
deriving DecidableEq, Repr

/-- Modelled from the spec: exponential backoff per key starting at a fixed
base delay, capped at a maximum delay. -/
def backoffDelay (cfg : KConfig) (retries : Nat) : Nat :=
  min (cfg.baseDelay * 2 ^ retries) cfg.maxDelay

/-- Modelled from the spec: the shared state of the work queue and the
worker pool.  `pending` is the queue of items not yet handed out; a slot
holding `some item` is a WorkerSlot in state Processing(item.key); the
in-flight set of the queue is exactly the multiset of items held by slots. -/
structure PoolState where
  now : Nat
  pending : List QueueItem
  slots : List (Option QueueItem)
  shuttingDown : Bool
deriving DecidableEq, Repr

namespace PoolState

/-- The items currently held by worker slots (the in-flight set). -/
def slotItems (st : PoolState) : List QueueItem :=
  st.slots.filterMap id

/-- Keys of pending items. -/
def pendingKeys (st : PoolState) : List ResourceKey :=
  st.pending.map QueueItem.key

/-- Keys currently being processed by some worker slot. -/
def inFlightKeys (st : PoolState) : List ResourceKey :=
  st.slotItems.map QueueItem.key

/-- All keys the queue currently owns: pending or in-flight. -/
def liveKeys (st : PoolState) : List ResourceKey :=
  st.pendingKeys ++ st.inFlightKeys

/-- A key is live when it is pending or in-flight (added but not yet done). -/
def live (st : PoolState) (k : ResourceKey) : Prop :=
  k ∈ st.liveKeys

instance (st : PoolState) (k : ResourceKey) : Decidable (st.live k) := by
  unfold live; infer_instance

/-- Modelled from the spec: `add(key)` — deduplicating enqueue.  Adding a
key that is already pending or in-flight is a no-op; a queue in shutdown
mode stops accepting new adds. -/
def addKey (st : PoolState) (k : ResourceKey) : PoolState :=
  if st.shuttingDown then st
  else if k ∈ st.liveKeys then st
  else { st with pending := st.pending ++ [⟨k, 0, st.now⟩] }

/-- How many worker slots are actively processing key `k`. -/
def processingCount (st : PoolState) (k : ResourceKey) : Nat :=
  st.slots.countP fun s =>
    match s with
    | some it => it.key == k
    | none => false

/-- The initial state: empty queue, `n` idle workers, clock at zero. -/
def init (n : Nat) : PoolState :=
  ⟨0, [], List.replicate n none, false⟩

end PoolState

/-- Find the first pending item whose not-before time has passed; return it
together with the remaining pending list. -/
def findReady (now : Nat) : List QueueItem → Option (QueueItem × List QueueItem)
  | [] => none
  | it :: rest =>
    if it.notBefore ≤ now then some (it, rest)
    else
      match findReady now rest with
      | some (x, rest') => some (x, it :: rest')
      | none => none

/-- Modelled from the spec: one interleaving step of the queue/worker-pool
system.  Event-source and resync `add`s, clock ticks, the queue handing a
ready item to an idle slot (`get`), a worker finishing successfully
(`done`), a worker finishing with a handler failure (`addAfterFailure`
then `done`: requeue with incremented retry counter and backoff while the
budget lasts, drop once `maxRetries` failures were recorded), and entering
shutdown. -/
inductive Step (cfg : KConfig) : PoolState → PoolState → Prop
  | add (st : PoolState) (k : ResourceKey) :
      Step cfg st (st.addKey k)
  | tick (st : PoolState) :
      Step cfg st { st with now := st.now + 1 }
  | dispatch (st : PoolState) (i : Nat) (item : QueueItem) (rest : List QueueItem)
      (hslot : st.slots[i]? = some none)
      (hready : findReady st.now st.pending = some (item, rest)) :
      Step cfg st { st with pending := rest, slots := st.slots.set i (some item) }
  | finishOk (st : PoolState) (i : Nat) (item : QueueItem)
      (hslot : st.slots[i]? = some (some item)) :
      Step cfg st { st with slots := st.slots.set i none }
  | finishFail (st : PoolState) (i : Nat) (item : QueueItem)
      (hslot : st.slots[i]? = some (some item)) :
      Step cfg st { st with
        slots := st.slots.set i none,
        pending :=
          if item.retries < cfg.maxRetries then
            st.pending ++ [⟨item.key, item.retries + 1,
              st.now + backoffDelay cfg item.retries⟩]
          else st.pending }
  | shutdown (st : PoolState) :
      Step cfg st { st with shuttingDown := true }

/-- States reachable from the initial state with `n` workers. -/
inductive Reachable (cfg : KConfig) (n : Nat) : PoolState → Prop
  | init : Reachable cfg n (PoolState.init n)
  | step {s t : PoolState} : Reachable cfg n s → Step cfg s t → Reachable cfg n t

/-! ### List helper lemmas for the slot and queue bookkeeping -/

theorem filterMap_id_replicate_none (n : Nat) :
    (List.replicate n (none : Option QueueItem)).filterMap id = [] := by
  induction n with
  | zero => rfl
  | succ m ih => simp [List.replicate_succ, ih]

theorem filterMap_id_set_some {l : List (Option QueueItem)} {i : Nat}
    (h : l[i]? = some none) (a : QueueItem) :
    ((l.set i (some a)).filterMap id).Perm (a :: l.filterMap id) := by
  induction l generalizing i with
  | nil => simp at h
  | cons hd tl ih =>
    cases i with
    | zero =>
      simp at h
      subst h
      simp [List.set]
    | succ j =>
      simp at h
      have hp := ih h
      cases hd with
      | none =>
        simpa [List.set] using hp
      | some b =>
        simp only [List.set, List.filterMap_cons, id] at hp ⊢
        exact (hp.cons b).trans (List.Perm.swap a b _)

theorem filterMap_id_set_none {l : List (Option QueueItem)} {i : Nat} {a : QueueItem}
    (h : l[i]? = some (some a)) :
    (l.filterMap id).Perm (a :: (l.set i none).filterMap id) := by
  induction l generalizing i with
  | nil => simp at h
  | cons hd tl ih =>
    cases i with
    | zero =>
      simp at h
      subst h
      simp [List.set]
    | succ j =>
      simp at h
      have hp := ih h
      cases hd with
      | none =>
        simpa [List.set] using hp
      | some b =>
        simp only [List.set, List.filterMap_cons, id] at hp ⊢
        exact (hp.cons b).trans (List.Perm.swap a b _)

theorem findReady_perm {now : Nat} :
    ∀ {l x rest}, findReady now l = some (x, rest) → l.Perm (x :: rest) := by
  intro l
  induction l with
  | nil => intro x rest h; simp [findReady] at h
  | cons it tl ih =>
    intro x rest h
    by_cases hr : it.notBefore ≤ now
    · simp [findReady, hr] at h
      obtain ⟨h1, h2⟩ := h
      subst h1; subst h2
      exact List.Perm.refl _
    · simp only [findReady, if_neg hr] at h
      cases hfr : findReady now tl with
      | none => rw [hfr] at h; simp at h
      | some p =>
        obtain ⟨y, rest'⟩ := p
        rw [hfr] at h
        simp at h
        obtain ⟨h1, h2⟩ := h
        subst h1; subst h2
        exact ((ih hfr).cons it).trans (List.Perm.swap _ _ _)

/-! ### The deduplication invariant: live keys are never duplicated -/

theorem nodup_append_singleton_append {p f : List ResourceKey} {k : ResourceKey}
    (hnd : (p ++ f).Nodup) (hk : k ∉ p ++ f) : ((p ++ [k]) ++ f).Nodup := by
  have hperm : ((p ++ [k]) ++ f).Perm (k :: (p ++ f)) := by
    rw [List.append_assoc]
    exact List.perm_middle
  exact hperm.symm.nodup (List.nodup_cons.mpr ⟨hk, hnd⟩)

/-- In every reachable state of the queue/worker-pool system, the list of
keys the queue owns (pending or in-flight) has no duplicates. -/
theorem Reachable.liveKeys_nodup {cfg : KConfig} {n : Nat} {st : PoolState}
    (h : Reachable cfg n st) : st.liveKeys.Nodup := by
  induction h with
  | init =>
    simp [PoolState.init, PoolState.liveKeys, PoolState.pendingKeys,
      PoolState.inFlightKeys, PoolState.slotItems, filterMap_id_replicate_none]
  | step hr hs ih =>
    rename_i s t
    cases hs with
    | add k =>
      unfold PoolState.addKey
      split
      · exact ih
      split
      · exact ih
      rename_i hmem
      simp only [PoolState.liveKeys, PoolState.pendingKeys, PoolState.inFlightKeys,
        PoolState.slotItems, List.map_append, List.map_cons, List.map_nil] at ih hmem ⊢
      exact nodup_append_singleton_append ih hmem
    | tick => exact ih
    | dispatch i item rest hslot hready =>
      have hA : (s.pending.map QueueItem.key).Perm
          (item.key :: rest.map QueueItem.key) := by
        simpa using (findReady_perm hready).map QueueItem.key
      have hB := (filterMap_id_set_some hslot item).map QueueItem.key
      simp only [List.map_cons] at hB
      simp only [PoolState.liveKeys, PoolState.pendingKeys, PoolState.inFlightKeys,
        PoolState.slotItems] at ih ⊢
      have h1 : (rest.map QueueItem.key ++
            ((s.slots.set i (some item)).filterMap id).map QueueItem.key).Perm
          (s.pending.map QueueItem.key ++
            (s.slots.filterMap id).map QueueItem.key) := by
      -- both sides are permutations of item.key :: (rest keys ++ in-flight keys)
        refine ((List.Perm.append_left _ hB).trans List.perm_middle).trans ?_
        exact ((hA.append_right _)).symm
      exact h1.symm.nodup ih
    | finishOk i item hslot =>
      have hB := (filterMap_id_set_none hslot).map QueueItem.key
      simp only [List.map_cons] at hB
      simp only [PoolState.liveKeys, PoolState.pendingKeys, PoolState.inFlightKeys,
        PoolState.slotItems] at ih ⊢
      have h1 : (s.pending.map QueueItem.key ++
            (s.slots.filterMap id).map QueueItem.key).Perm
          (item.key :: (s.pending.map QueueItem.key ++
            ((s.slots.set i none).filterMap id).map QueueItem.key)) :=
        (List.Perm.append_left _ hB).trans List.perm_middle
      exact (List.nodup_cons.mp (h1.nodup ih)).2
    | finishFail i item hslot =>
      have hB := (filterMap_id_set_none hslot).map QueueItem.key
      simp only [List.map_cons] at hB
      simp only [PoolState.liveKeys, PoolState.pendingKeys, PoolState.inFlightKeys,
        PoolState.slotItems] at ih ⊢
      have h1 : (s.pending.map QueueItem.key ++
            (s.slots.filterMap id).map QueueItem.key).Perm
          (item.key :: (s.pending.map QueueItem.key ++
            ((s.slots.set i none).filterMap id).map QueueItem.key)) :=
        (List.Perm.append_left _ hB).trans List.perm_middle
      have hcons := h1.nodup ih
      by_cases hlt : item.retries < cfg.maxRetries
      · simp only [if_pos hlt, List.map_append, List.map_cons, List.map_nil]
        exact nodup_append_singleton_append (List.nodup_cons.mp hcons).2
          (List.nodup_cons.mp hcons).1
      · simp only [if_neg hlt]
        exact (List.nodup_cons.mp hcons).2
    | shutdown => exact ih

theorem countP_slots (l : List (Option QueueItem)) (k : ResourceKey) :
    (l.countP fun s =>
      match s with
      | some it => it.key == k
      | none => false) = ((l.filterMap id).map QueueItem.key).count k := by
  induction l with
  | nil => simp
  | cons hd tl ih =>
    cases hd with
    | none => simpa [List.countP_cons] using ih
    | some it =>
      simp [List.countP_cons, List.count_cons, ih]

theorem processingCount_eq_count (st : PoolState) (k : ResourceKey) :
    st.processingCount k = st.inFlightKeys.count k := by
  unfold PoolState.processingCount PoolState.inFlightKeys PoolState.slotItems
  exact countP_slots st.slots k

/-- Adding a live (pending or in-flight) key leaves the state unchanged. -/
theorem PoolState.addKey_of_live {st : PoolState} {k : ResourceKey}
    (h : st.live k) : st.addKey k = st := by
  unfold PoolState.addKey
  split
  · rfl
  · exact if_pos h

/-- Repeat `add(k)` M times. -/
def PoolState.addTimes (st : PoolState) (k : ResourceKey) : Nat → PoolState
  | 0 => st
  | m + 1 => (st.addTimes k m).addKey k

/-- C1: in every reachable state of the running controller, at most one
WorkerSlot is actively processing any given ResourceKey k: the queue never
hands the same key to two slots simultaneously, regardless of the number
of workers `n` or of how often k was added. -/
theorem at_most_one_slot_per_key {cfg : KConfig} {n : Nat} {st : PoolState}
    (h : Reachable cfg n st) (k : ResourceKey) :
    st.processingCount k ≤ 1 := by
  rw [processingCount_eq_count]
  have hnd : st.inFlightKeys.Nodup :=
    (List.nodup_append.mp h.liveKeys_nodup).2.1
  exact List.nodup_iff_count_le_one.mp hnd k

/-- Witness for C1: a concrete reachable state (two workers; key "a" was
added and then dispatched to slot 0) has at most one slot processing "a". -/
theorem at_most_one_slot_per_key_witness :
    ({ now := 0, pending := [], slots := [some ⟨"a", 0, 0⟩, none],
       shuttingDown := false } : PoolState).processingCount "a" ≤ 1 :=
  at_most_one_slot_per_key
    (Reachable.step
      (Reachable.step (@Reachable.init ⟨3, 1, 8⟩ 2) (Step.add _ "a"))
      (Step.dispatch _ 0 ⟨"a", 0, 0⟩ [] rfl rfl)) "a"

/-- C2: issuing `add(k)` M times while k is already owned by the queue
(pending or in-flight, not yet done) is a no-op: it leaves the state
unchanged, the queue holds exactly one live entry for k (and exactly one
pending entry when k is pending), and the queue's key list is a set,
never a multiset. -/
theorem add_dedup {cfg : KConfig} {n : Nat} {st : PoolState}
    (h : Reachable cfg n st) {k : ResourceKey} (hl : st.live k) (M : Nat) :
    st.addTimes k M = st ∧
    st.liveKeys.count k = 1 ∧
    (k ∈ st.pendingKeys → st.pendingKeys.count k = 1) ∧
    st.liveKeys.Nodup := by
  have hnd := h.liveKeys_nodup
  refine ⟨?_, ?_, ?_, hnd⟩
  · induction M with
    | zero => rfl
    | succ m ih => simp [PoolState.addTimes, ih, PoolState.addKey_of_live hl]
  · have hle := List.nodup_iff_count_le_one.mp hnd k
    have hpos : 0 < st.liveKeys.count k := List.count_pos_iff.mpr hl
    omega
  · intro hp
    have hndp : st.pendingKeys.Nodup := (List.nodup_append.mp hnd).1
    have hle := List.nodup_iff_count_le_one.mp hndp k
    have hpos : 0 < st.pendingKeys.count k := List.count_pos_iff.mpr hp
    omega

/-- The concrete state used by the C2 witness: two idle workers and the
key "a" pending. -/
def dedupWitnessState : PoolState :=
  { now := 0, pending := [⟨"a", 0, 0⟩], slots := [none, none],
    shuttingDown := false }

/-- Witness for C2: in the concrete reachable state where "a" is pending,
adding "a" five more times changes nothing and "a" has exactly one entry. -/
theorem add_dedup_witness :
    dedupWitnessState.addTimes "a" 5 = dedupWitnessState ∧
    dedupWitnessState.liveKeys.count "a" = 1 ∧
    ("a" ∈ dedupWitnessState.pendingKeys →
      dedupWitnessState.pendingKeys.count "a" = 1) ∧
    dedupWitnessState.liveKeys.Nodup :=
  add_dedup
    (Reachable.step (@Reachable.init ⟨3, 1, 8⟩ 2) (Step.add _ "a"))
    (by decide) 5

/-! ### Resync: re-enqueue every key of the last full list via `add` -/

/-- Modelled from the spec: the Resync Scheduler re-enumerates every key of
the last full list and calls the Work Queue's ordinary `add` for each; it
is just another source of `add` calls and bypasses nothing. -/
def resyncAdd (st : PoolState) (keys : List ResourceKey) : PoolState :=
  keys.foldl PoolState.addKey st

theorem PoolState.addKey_shuttingDown (st : PoolState) (k : ResourceKey) :
    (st.addKey k).shuttingDown = st.shuttingDown := by
  unfold PoolState.addKey
  split
  · rfl
  split <;> rfl

theorem PoolState.live_addKey_self {st : PoolState} (k : ResourceKey)
    (hsd : st.shuttingDown = false) : (st.addKey k).live k := by
  unfold PoolState.addKey
  rw [hsd]
  simp only [Bool.false_eq_true, if_false]
  split
  · assumption
  · simp [PoolState.live, PoolState.liveKeys, PoolState.pendingKeys]

theorem PoolState.live_addKey_mono {st : PoolState} {k : ResourceKey}
    (k' : ResourceKey) (h : st.live k) : (st.addKey k').live k := by
  unfold PoolState.addKey
  split
  · exact h
  split
  · exact h
  · unfold PoolState.live PoolState.liveKeys PoolState.pendingKeys
      PoolState.inFlightKeys PoolState.slotItems at h ⊢
    simp only [List.map_append, List.map_cons, List.map_nil, List.mem_append,
      List.mem_singleton] at h ⊢
    tauto

theorem Reachable.resyncAdd {cfg : KConfig} {n : Nat} {st : PoolState}
    (h : Reachable cfg n st) (keys : List ResourceKey) :
    Reachable cfg n (resyncAdd st keys) := by
  induction keys generalizing st with
  | nil => exact h
  | cons k rest ih => exact ih (h.step (Step.add st k))

theorem resyncAdd_shuttingDown (st : PoolState) (keys : List ResourceKey) :
    (resyncAdd st keys).shuttingDown = st.shuttingDown := by
  induction keys generalizing st with
  | nil => rfl
  | cons k rest ih =>
    simpa [resyncAdd, PoolState.addKey_shuttingDown] using ih (st.addKey k)

theorem resyncAdd_live_mono {st : PoolState} {k : ResourceKey}
    (keys : List ResourceKey) (h : st.live k) : (resyncAdd st keys).live k := by
  induction keys generalizing st with
  | nil => exact h
  | cons k' rest ih => exact ih (PoolState.live_addKey_mono k' h)

theorem resyncAdd_live_of_mem {st : PoolState} {k : ResourceKey}
    {keys : List ResourceKey} (hsd : st.shuttingDown = false)
    (hmem : k ∈ keys) : (resyncAdd st keys).live k := by
  induction keys generalizing st with
  | nil => cases hmem
  | cons k' rest ih =>
    rcases List.mem_cons.mp hmem with hk | hk
    · subst hk
      exact resyncAdd_live_mono rest (PoolState.live_addKey_self k hsd)
    · exact ih (by rw [PoolState.addKey_shuttingDown]; exact hsd) hk

/-- C4: if a resync fires while zero watch events arrive (so the only
activity is the scheduler folding the last full list through the queue's
ordinary `add` path), every key of that list ends up enqueued exactly
once: the result is again a reachable state — so deduplication and
backoff bookkeeping are respected, never bypassed — and each listed key
has exactly one live entry. -/
theorem resync_reenqueues_each_key_once {cfg : KConfig} {n : Nat}
    {st : PoolState} (h : Reachable cfg n st)
    (hsd : st.shuttingDown = false) (keys : List ResourceKey) :
    Reachable cfg n (resyncAdd st keys) ∧
    ∀ k ∈ keys, (resyncAdd st keys).liveKeys.count k = 1 := by
  have hreach := h.resyncAdd keys
  refine ⟨hreach, fun k hk => ?_⟩
  have hnd := hreach.liveKeys_nodup
  have hlive : (resyncAdd st keys).live k := resyncAdd_live_of_mem hsd hk
  have hle := List.nodup_iff_count_le_one.mp hnd k
  have hpos : 0 < (resyncAdd st keys).liveKeys.count k :=
    List.count_pos_iff.mpr hlive
  omega

/-- Witness for C4: resyncing the two-key list ["a", "b"] into the empty
one-worker queue leaves each key with exactly one live entry. -/
theorem resync_reenqueues_each_key_once_witness :
    Reachable ⟨3, 1, 8⟩ 1 (resyncAdd (PoolState.init 1) ["a", "b"]) ∧
    ∀ k ∈ ["a", "b"],
      (resyncAdd (PoolState.init 1) ["a", "b"]).liveKeys.count k = 1 :=
  resync_reenqueues_each_key_once (@Reachable.init ⟨3, 1, 8⟩ 1) rfl ["a", "b"]

/-! ### Retry bound for an always-failing handler -/

/-- Earliest not-before time among pending items (`none` when empty). -/
def minNB : List QueueItem → Option Nat
  | [] => none
  | it :: rest =>
    match minNB rest with
    | none => some it.notBefore
    | some t => some (min it.notBefore t)

/-- Modelled from the spec: `addAfterFailure` bookkeeping after a failed
handler invocation — requeue with the retry counter incremented and an
exponential-backoff not-before time while the budget lasts, drop the item
once `maxRetries` failures were recorded. -/
def stepFail (cfg : KConfig) (now : Nat) (item : QueueItem) : List QueueItem :=
  if item.retries < cfg.maxRetries then
    [⟨item.key, item.retries + 1, now + backoffDelay cfg item.retries⟩]
  else []

/-- Modelled from the spec: a deterministic single-worker run in which every
handler invocation fails.  Each round takes the first ready item (one
handler invocation), applies the failure bookkeeping, and otherwise
advances the clock to the earliest backoff deadline.  Returns the number
of handler invocations together with the final pending list. -/
def runAlwaysFailing (cfg : KConfig) :
    Nat → Nat → List QueueItem → Nat × List QueueItem
  | 0, _, pending => (0, pending)
  | fuel + 1, now, pending =>
    match findReady now pending with
    | some (item, rest) =>
      let next := runAlwaysFailing cfg fuel now (rest ++ stepFail cfg now item)
      (next.1 + 1, next.2)
    | none =>
      match minNB pending with
      | none => (0, pending)
      | some t => runAlwaysFailing cfg fuel t pending

theorem runAlwaysFailing_nil (cfg : KConfig) (fuel now : Nat) :
    runAlwaysFailing cfg fuel now [] = (0, []) := by
  cases fuel <;> simp [runAlwaysFailing, findReady, minNB]

theorem runAlwaysFailing_single (cfg : KConfig) (k : ResourceKey) :
    ∀ fuel r now nb, r ≤ cfg.maxRetries →
      (2 * (cfg.maxRetries - r) + 2 ≤ fuel ∨
        (nb ≤ now ∧ 2 * (cfg.maxRetries - r) + 1 ≤ fuel)) →
      runAlwaysFailing cfg fuel now [⟨k, r, nb⟩] =
        (cfg.maxRetries - r + 1, []) := by
  intro fuel
  induction fuel with
  | zero =>
    intro r now nb hr hb
    rcases hb with hb | hb <;> omega
  | succ f ih =>
    intro r now nb hr hb
    by_cases hnb : nb ≤ now
    · have hfr : findReady now [⟨k, r, nb⟩] = some (⟨k, r, nb⟩, []) := by
        simp [findReady, hnb]
      by_cases hlt : r < cfg.maxRetries
      · have hsf : stepFail cfg now ⟨k, r, nb⟩ =
            [⟨k, r + 1, now + backoffDelay cfg r⟩] := by
          simp [stepFail, hlt]
        have hrec := ih (r + 1) now (now + backoffDelay cfg r) (by omega)
          (Or.inl (by rcases hb with hb | hb <;> omega))
        simp only [runAlwaysFailing, hfr, hsf, List.nil_append, hrec]
        simp only [Prod.mk.injEq]
        exact ⟨by omega, trivial⟩
      · have hsf : stepFail cfg now ⟨k, r, nb⟩ = [] := by
          simp [stepFail, hlt]
        simp only [runAlwaysFailing, hfr, hsf, List.nil_append,
          runAlwaysFailing_nil]
        simp only [Prod.mk.injEq]
        exact ⟨by omega, trivial⟩
    · have hfr : findReady now [⟨k, r, nb⟩] = none := by
        simp [findReady, hnb]
      have hmn : minNB [⟨k, r, nb⟩] = some nb := by
        simp [minNB]
      simp only [runAlwaysFailing, hfr, hmn]
      exact ih r nb nb hr (Or.inr ⟨le_refl nb, by rcases hb with hb | hb <;> omega⟩)

/-- C3: with a handler that always fails for key k, the controller invokes
the handler exactly `maxRetries + 1` times and then drops k from the
queue (the run ends with an empty pending list), after which no further
invocation happens (a run over the empty queue performs zero invocations)
until a new event or resync adds k again. -/
theorem retry_bound (cfg : KConfig) (k : ResourceKey) (now fuel : Nat)
    (hfuel : 2 * cfg.maxRetries + 2 ≤ fuel) :
    runAlwaysFailing cfg fuel now [⟨k, 0, now⟩] = (cfg.maxRetries + 1, []) ∧
    runAlwaysFailing cfg fuel now [] = (0, []) := by
  constructor
  · have h0 := runAlwaysFailing_single cfg k fuel 0 now now (Nat.zero_le _)
      (Or.inr ⟨le_refl now, by omega⟩)
    simpa using h0
  · exact runAlwaysFailing_nil cfg fuel now

/-- Witness for C3: with a retry budget of 2, the always-failing run over
key "a" performs exactly 3 handler invocations and ends empty. -/
theorem retry_bound_witness :
    runAlwaysFailing ⟨2, 1, 4⟩ 10 0 [⟨"a", 0, 0⟩] = (3, []) ∧
    runAlwaysFailing ⟨2, 1, 4⟩ 10 0 [] = (0, []) :=
  retry_bound ⟨2, 1, 4⟩ "a" 0 10 (by decide)

/-! ### Controller lifecycle state machine -/

/-- Modelled from the spec: the ControllerRunState enum. -/
inductive ControllerRunState
  | created
  | running
  | stopping
  | stopped
deriving DecidableEq, Repr

/-- Modelled from the spec: a controller instance's lifecycle state — the
run phase together with the number of workers still active and whether
the event-source adapter is still active. -/
structure CtrlState where
  phase : ControllerRunState
  activeWorkers : Nat
  adapterRunning : Bool
deriving DecidableEq, Repr

/-- Modelled from the spec: lifecycle transitions.  Created→Running on
start; Running→Stopping on a stop signal or a fatal Event Source error;
while Stopping, workers and the adapter exit one by one; Stopping→Stopped
once all workers and the adapter have exited.  Stopped has no outgoing
transition. -/
inductive CtrlStep : CtrlState → CtrlState → Prop
  | start (n : Nat) :
      CtrlStep ⟨.created, 0, false⟩ ⟨.running, n, true⟩
  | stopSignal (w : Nat) (a : Bool) :
      CtrlStep ⟨.running, w, a⟩ ⟨.stopping, w, a⟩
  | sourceFatal (w : Nat) (a : Bool) :
      CtrlStep ⟨.running, w, a⟩ ⟨.stopping, w, a⟩
  | adapterExit (w : Nat) :
      CtrlStep ⟨.stopping, w, true⟩ ⟨.stopping, w, false⟩
  | workerExit (w : Nat) (a : Bool) :
      CtrlStep ⟨.stopping, w + 1, a⟩ ⟨.stopping, w, a⟩
  | allExited :
      CtrlStep ⟨.stopping, 0, false⟩ ⟨.stopped, 0, false⟩

/-- Zero or more lifecycle transitions. -/
inductive CtrlReach : CtrlState → CtrlState → Prop
  | refl (s : CtrlState) : CtrlReach s s
  | step {s t u : CtrlState} : CtrlReach s t → CtrlStep t u → CtrlReach s u

/-- C5: every transition of a controller instance either keeps the phase
or follows one of Created→Running, Running→Stopping, or Stopping→Stopped
(the latter only once all workers and the adapter have exited); no
transition leaves a Stopped instance, so no instance ever reaches any
state other than Stopped — in particular never Running — after stopping. -/
theorem run_state_transitions :
    (∀ s t : CtrlState, CtrlStep s t →
      s.phase = t.phase ∨
      (s.phase = .created ∧ t.phase = .running) ∨
      (s.phase = .running ∧ t.phase = .stopping) ∨
      (s.phase = .stopping ∧ t.phase = .stopped ∧ s.activeWorkers = 0 ∧
        s.adapterRunning = false)) ∧
    (∀ s t : CtrlState, s.phase = .stopped → ¬ CtrlStep s t) ∧
    (∀ s t : CtrlState, s.phase = .stopped → CtrlReach s t → t = s) := by
  have hterm : ∀ s t : CtrlState, s.phase = .stopped → ¬ CtrlStep s t := by
    intro s t hs hst
    cases hst <;> simp_all
  refine ⟨?_, hterm, ?_⟩
  · intro s t hst
    cases hst <;> simp
  · intro s t hs hr
    induction hr with
    | refl => rfl
    | step hmid hst ih =>
      exact absurd (ih ▸ hst) (hterm s _ hs)

/-- Witness for C5: from the Stopped state there is no transition back to
Running. -/
theorem run_state_transitions_witness :
    ¬ CtrlStep ⟨.stopped, 0, false⟩ ⟨.running, 3, true⟩ :=
  run_state_transitions.2.1 ⟨.stopped, 0, false⟩ ⟨.running, 3, true⟩ rfl

/-! ### Construction-time validation -/

/-- Modelled from the spec: the caller-supplied Handler capability —
`handle(context, key, payload_or_nil) -> success | failure`. -/
structure Handler (P : Type) where
  handle : ResourceKey → Option P → Bool

/-- Modelled from the spec: the caller-supplied Retriever capability
(`list` result plus version token; the watch side is irrelevant here). -/
structure Retriever (P : Type) where
  listItems : List (ResourceKey × P)
  versionToken : Nat

/-- Modelled from the spec: the recognized configuration surface of
`create(config)`. -/
structure Config (P : Type) where
  handler : Option (Handler P)
  retriever : Option (Retriever P)
  concurrentWorkers : Int
  resyncIntervalS : Nat
  maxRetries : Nat

/-- Modelled from the spec: invalid/missing configuration at creation
time is fatal and returned immediately. -/
inductive ConstructionError
  | missingHandler
  | missingRetriever
deriving DecidableEq, Repr

/-- A constructed controller value (nothing running yet). -/
structure Controller (P : Type) where
  handler : Handler P
  retriever : Retriever P
  workers : Nat
  phase : ControllerRunState

/-- Modelled from the spec: `create(config) -> Controller |
constructionError`.  A missing Handler or Retriever is a construction-time
error, returned immediately with nothing started; a request for fewer
than one concurrent worker is not an error but is coerced to one worker. -/
def newController {P : Type} (cfg : Config P) :
    Except ConstructionError (Controller P) :=
  match cfg.handler with
  | none => .error .missingHandler
  | some h =>
    match cfg.retriever with
    | none => .error .missingRetriever
    | some r =>
      .ok { handler := h, retriever := r,
            workers := if cfg.concurrentWorkers < 1 then 1
                       else cfg.concurrentWorkers.toNat,
            phase := .created }

/-- C6: construction fails fast with an error — and produces no controller,
so nothing is left running — exactly when the Handler or the Retriever is
missing; a request for zero (or fewer) workers is not an error: the
controller is built in the Created phase with the worker count coerced to
one. -/
theorem construction_fails_fast {P : Type} (cfg : Config P) :
    (cfg.handler = none → newController cfg = .error .missingHandler) ∧
    (∀ h, cfg.handler = some h → cfg.retriever = none →
      newController cfg = .error .missingRetriever) ∧
    (∀ h r, cfg.handler = some h → cfg.retriever = some r →
      ∃ c, newController cfg = .ok c ∧ 1 ≤ c.workers ∧
        (cfg.concurrentWorkers ≤ 0 → c.workers = 1) ∧
        (1 ≤ cfg.concurrentWorkers → (c.workers : Int) = cfg.concurrentWorkers) ∧
        c.phase = .created) := by
  refine ⟨?_, ?_, ?_⟩
  · intro hh
    simp [newController, hh]
  · intro h hh hr
    simp [newController, hh, hr]
  · intro h r hh hr
    refine ⟨⟨h, r, if cfg.concurrentWorkers < 1 then 1
        else cfg.concurrentWorkers.toNat, .created⟩,
      by simp [newController, hh, hr], ?_, ?_, ?_, rfl⟩
    · show 1 ≤ (if cfg.concurrentWorkers < 1 then 1
        else cfg.concurrentWorkers.toNat)
      split <;> omega
    · intro hle
      show (if cfg.concurrentWorkers < 1 then 1
        else cfg.concurrentWorkers.toNat) = 1
      split <;> omega
    · intro hge
      show ((if cfg.concurrentWorkers < 1 then 1
        else cfg.concurrentWorkers.toNat : Nat) : Int) = cfg.concurrentWorkers
      split <;> omega

/-- Witness for C6: a config with no handler is rejected; a complete config
asking for zero workers yields a Created controller with one worker. -/
theorem construction_fails_fast_witness :
    newController (⟨none, none, 3, 180, 3⟩ : Config Nat) =
      .error .missingHandler ∧
    ∃ c, newController (⟨some ⟨fun _ _ => true⟩, some ⟨[], 0⟩, 0, 180, 3⟩ :
        Config Nat) = .ok c ∧ 1 ≤ c.workers ∧
      ((0 : Int) ≤ 0 → c.workers = 1) ∧
      ((1 : Int) ≤ 0 → (c.workers : Int) = 0) ∧
      c.phase = .created :=
  ⟨(construction_fails_fast (⟨none, none, 3, 180, 3⟩ : Config Nat)).1 rfl,
   (construction_fails_fast _).2.2 ⟨fun _ _ => true⟩ ⟨[], 0⟩ rfl rfl⟩

/-! ### Events and handler dispatch -/

/-- Modelled from the spec: Event is a tagged union over Added(key,
payload), Updated(key, payload), Deleted(key); deletion events carry only
the key because the object no longer exists. -/
inductive Event (P : Type)
  | added (key : ResourceKey) (payload : P)
  | updated (key : ResourceKey) (payload : P)
  | deleted (key : ResourceKey)

/-- The key of an event. -/
def Event.key {P : Type} : Event P → ResourceKey
  | .added k _ => k
  | .updated k _ => k
  | .deleted k => k

/-- The payload carried by the event (`payload_or_nil`), or none for a
deletion. -/
def Event.payloadOrNil {P : Type} : Event P → Option P
  | .added _ p => some p
  | .updated _ p => some p
  | .deleted _ => none

/-- Modelled from the spec: a worker invokes the Handler capability with
the event's key and `payload_or_nil`. -/
def invokeHandler {P : Type} (h : Handler P) (e : Event P) : Bool :=
  h.handle e.key e.payloadOrNil

/-- The example program's HandlerFunc shape: an add/update function that
receives the observed object, and a delete function that receives only the
key string. -/
structure HandlerFunc (P : Type) where
  addFunc : P → Bool
  deleteFunc : ResourceKey → Bool

/-- A HandlerFunc viewed as a Handler: invocations that carry a payload go
to `addFunc` with the object; invocations with a nil payload (deletions)
go to `deleteFunc` with the key. -/
def HandlerFunc.asHandler {P : Type} (hf : HandlerFunc P) : Handler P :=
  ⟨fun k p =>
    match p with
    | some obj => hf.addFunc obj
    | none => hf.deleteFunc k⟩

/-- C7: a Deleted event carries only the key and no payload, so the handler
is invoked for deletions with the key and a nil payload (reaching the
example's `deleteFunc` with just the key string), whereas Added and
Updated events carry the observed payload (reaching `addFunc` with the
object). -/
theorem deleted_event_carries_only_key {P : Type} (hf : HandlerFunc P)
    (k : ResourceKey) (p : P) :
    (Event.deleted k : Event P).payloadOrNil = none ∧
    (Event.added k p).payloadOrNil = some p ∧
    (Event.updated k p).payloadOrNil = some p ∧
    (Event.deleted k : Event P).key = k ∧
    invokeHandler hf.asHandler (Event.deleted k : Event P) = hf.deleteFunc k ∧
    invokeHandler hf.asHandler (Event.added k p) = hf.addFunc p ∧
    invokeHandler hf.asHandler (Event.updated k p) = hf.addFunc p :=
  ⟨rfl, rfl, rfl, rfl, rfl, rfl, rfl⟩

/-- Witness for C7: concrete dispatch over Nat payloads, with a handler
whose add branch returns true and whose delete branch returns false. -/
theorem deleted_event_carries_only_key_witness :
    (Event.deleted "ns/pod" : Event Nat).payloadOrNil = none ∧
    (Event.added "ns/pod" 7).payloadOrNil = some 7 ∧
    (Event.updated "ns/pod" 7).payloadOrNil = some 7 ∧
    (Event.deleted "ns/pod" : Event Nat).key = "ns/pod" ∧
    invokeHandler (HandlerFunc.asHandler ⟨fun _ => true, fun _ => false⟩)
      (Event.deleted "ns/pod" : Event Nat) = false ∧
    invokeHandler (HandlerFunc.asHandler ⟨fun _ => true, fun _ => false⟩)
      (Event.added "ns/pod" 7) = true ∧
    invokeHandler (HandlerFunc.asHandler ⟨fun _ => true, fun _ => false⟩)
      (Event.updated "ns/pod" 7) = true :=
  deleted_event_carries_only_key ⟨fun _ => true, fun _ => false⟩ "ns/pod" 7

/-! ### Leadership gate for two controller instances -/

/-- Modelled from the spec: two controller instances sharing one
LeaderElector.  The `acquired` fields record which instance currently has
`tryAcquire()` returned true without having released; the `pipeline`
fields record whether each instance's pipeline (watches, workers, handler
invocations) is running. -/
structure LeaderState where
  acquiredZero : Bool
  acquiredOne : Bool
  pipelineZero : Bool
  pipelineOne : Bool
deriving DecidableEq, Repr

/-- Modelled from the spec: transitions of the leadership gate.
`tryAcquire` succeeds only while nobody holds leadership; a pipeline may
start only for the current holder; on leadership loss the pipeline is
stopped first and only then is the hold released, so the other instance
can acquire only after the loser's pipeline has stopped. -/
inductive LeaderStep : LeaderState → LeaderState → Prop
  | acquireZero {s : LeaderState}
      (h0 : s.acquiredZero = false) (h1 : s.acquiredOne = false) :
      LeaderStep s { s with acquiredZero := true }
  | acquireOne {s : LeaderState}
      (h0 : s.acquiredZero = false) (h1 : s.acquiredOne = false) :
      LeaderStep s { s with acquiredOne := true }
  | startPipelineZero {s : LeaderState} (h : s.acquiredZero = true) :
      LeaderStep s { s with pipelineZero := true }
  | startPipelineOne {s : LeaderState} (h : s.acquiredOne = true) :
      LeaderStep s { s with pipelineOne := true }
  | stopPipelineZero {s : LeaderState} :
      LeaderStep s { s with pipelineZero := false }
  | stopPipelineOne {s : LeaderState} :
      LeaderStep s { s with pipelineOne := false }
  | releaseZero {s : LeaderState}
      (h : s.acquiredZero = true) (hp : s.pipelineZero = false) :
      LeaderStep s { s with acquiredZero := false }
  | releaseOne {s : LeaderState}
      (h : s.acquiredOne = true) (hp : s.pipelineOne = false) :
      LeaderStep s { s with acquiredOne := false }

/-- States of the two-instance leadership system reachable from the state
where nobody is leader and nothing runs. -/
inductive LeaderReachable : LeaderState → Prop
  | init : LeaderReachable ⟨false, false, false, false⟩
  | step {s t : LeaderState} :
      LeaderReachable s → LeaderStep s t → LeaderReachable t

/-- C8: with two controller instances sharing one LeaderElector, in every
reachable state at most one instance holds an unreleased successful
`tryAcquire()`; an instance whose pipeline is running is necessarily the
holder (while not leader, the pipeline is not running); and whenever the
elector is free for the other instance to acquire, every pipeline has
already stopped. -/
theorem leadership_exclusive {s : LeaderState} (h : LeaderReachable s) :
    ¬(s.acquiredZero = true ∧ s.acquiredOne = true) ∧
    (s.pipelineZero = true → s.acquiredZero = true) ∧
    (s.pipelineOne = true → s.acquiredOne = true) ∧
    (s.acquiredZero = false ∧ s.acquiredOne = false →
      s.pipelineZero = false ∧ s.pipelineOne = false) := by
  induction h with
  | init => simp
  | step hr hst ih =>
    rename_i sp tp
    obtain ⟨hA, hB, hC, hD⟩ := ih
    have hnp0 : sp.acquiredZero = false → sp.pipelineZero = false := by
      intro ha
      cases hpz : sp.pipelineZero
      · rfl
      · rw [hB hpz] at ha
        simp at ha
    have hnp1 : sp.acquiredOne = false → sp.pipelineOne = false := by
      intro ha
      cases hpo : sp.pipelineOne
      · rfl
      · rw [hC hpo] at ha
        simp at ha
    have hA0 : sp.acquiredZero = true → sp.acquiredOne = false := by
      intro h0
      cases h1 : sp.acquiredOne
      · rfl
      · exact absurd ⟨h0, h1⟩ hA
    have hA1 : sp.acquiredOne = true → sp.acquiredZero = false := by
      intro h1
      cases h0 : sp.acquiredZero
      · rfl
      · exact absurd ⟨h0, h1⟩ hA
    cases hst <;> simp_all

/-- The concrete state used by the C8 witness: instance zero acquired
leadership and started its pipeline. -/
def leaderWitnessState : LeaderState :=
  ⟨true, false, true, false⟩

/-- Witness for C8: in the concrete reachable state where instance zero is
leader with its pipeline running, the exclusivity properties hold. -/
theorem leadership_exclusive_witness :
    ¬(leaderWitnessState.acquiredZero = true ∧
      leaderWitnessState.acquiredOne = true) ∧
    (leaderWitnessState.pipelineZero = true →
      leaderWitnessState.acquiredZero = true) ∧
    (leaderWitnessState.pipelineOne = true →
      leaderWitnessState.acquiredOne = true) ∧
    (leaderWitnessState.acquiredZero = false ∧
        leaderWitnessState.acquiredOne = false →
      leaderWitnessState.pipelineZero = false ∧
        leaderWitnessState.pipelineOne = false) :=
  leadership_exclusive
    (LeaderReachable.step
      (LeaderReachable.step LeaderReachable.init
        (LeaderStep.acquireZero rfl rfl))
      (LeaderStep.startPipelineZero rfl))

/-! ### The example program: flag coercion and kubeconfig fallback -/

/-- The example's flag values (defaults: concurrency 3, sleep-ms 25,
interval-s 300, retries 3), as parsed into Go ints. -/
structure Flags where
  concurrentWorkers : Int
  sleepMS : Int
  intervalS : Int
  retries : Int
deriving DecidableEq, Repr

/-- Embeds `initFlags` of
`examples/controller-concurrency-handling-example/main.go` after a
successful parse: each out-of-range value is coerced to its fixed
fallback and nil (no error) is returned. -/
def initFlags (f : Flags) : Except String Flags :=
  .ok
    { concurrentWorkers :=
        if f.concurrentWorkers < 1 then 1 else f.concurrentWorkers,
      sleepMS := if f.sleepMS < 1 then 25 else f.sleepMS,
      intervalS := if f.intervalS < 1 then 300 else f.intervalS,
      retries := if f.retries < 0 then 0 else f.retries }

/-- C9: for every parsed command-line input, `initFlags` returns without
error and the resulting configuration satisfies concurrentWorkers ≥ 1,
sleepMS ≥ 1, intervalS ≥ 1 and retries ≥ 0; out-of-range values are
silently coerced to the fixed fallbacks 1, 25, 300 and 0 respectively,
in-range values are kept, and no value is ever rejected with an error. -/
theorem initFlags_coerces (f : Flags) :
    ∃ g : Flags, initFlags f = .ok g ∧
      1 ≤ g.concurrentWorkers ∧ 1 ≤ g.sleepMS ∧ 1 ≤ g.intervalS ∧
      0 ≤ g.retries ∧
      (f.concurrentWorkers < 1 → g.concurrentWorkers = 1) ∧
      (f.sleepMS < 1 → g.sleepMS = 25) ∧
      (f.intervalS < 1 → g.intervalS = 300) ∧
      (f.retries < 0 → g.retries = 0) ∧
      (1 ≤ f.concurrentWorkers → g.concurrentWorkers = f.concurrentWorkers) ∧
      (1 ≤ f.sleepMS → g.sleepMS = f.sleepMS) ∧
      (1 ≤ f.intervalS → g.intervalS = f.intervalS) ∧
      (0 ≤ f.retries → g.retries = f.retries) := by
  refine ⟨_, rfl, ?_, ?_, ?_, ?_, ?_, ?_, ?_, ?_, ?_, ?_, ?_, ?_⟩ <;>
    · intros
      dsimp only
      split <;> omega

/-- Witness for C9: all-out-of-range input (0, 0, 0, -1) is coerced to the
fallbacks, with no error. -/
theorem initFlags_coerces_witness :
    ∃ g : Flags, initFlags ⟨0, 0, 0, -1⟩ = .ok g ∧
      1 ≤ g.concurrentWorkers ∧ 1 ≤ g.sleepMS ∧ 1 ≤ g.intervalS ∧
      0 ≤ g.retries ∧
      ((0 : Int) < 1 → g.concurrentWorkers = 1) ∧
      ((0 : Int) < 1 → g.sleepMS = 25) ∧
      ((0 : Int) < 1 → g.intervalS = 300) ∧
      ((-1 : Int) < 0 → g.retries = 0) ∧
      ((1 : Int) ≤ 0 → g.concurrentWorkers = 0) ∧
      ((1 : Int) ≤ 0 → g.sleepMS = 0) ∧
      ((1 : Int) ≤ 0 → g.intervalS = 0) ∧
      ((0 : Int) ≤ -1 → g.retries = -1) :=
  initFlags_coerces ⟨0, 0, 0, -1⟩

/-- The fallback kubeconfig file path of the example:
`filepath.Join(homedir.HomeDir(), ".kube", "config")`. -/
def kubeconfigPath (home : String) : String :=
  home ++ "/.kube/config"

/-- Which source provided the Kubernetes client configuration. -/
inductive KubeConfigSource
  | inCluster
  | homeKubeconfig
deriving DecidableEq, Repr

/-- Embeds the configuration-loading sequence of `run()` in
`examples/controller-concurrency-handling-example/main.go`: try the
in-cluster configuration first; on any error fall back to the kubeconfig
file under the home directory; only if that also fails return the wrapped
error. -/
def loadKubeConfig {C : Type} (inClusterResult : Except String C)
    (loadFile : String → Except String C) (home : String) :
    Except String (KubeConfigSource × C) :=
  match inClusterResult with
  | .ok c => .ok (.inCluster, c)
  | .error _ =>
    match loadFile (kubeconfigPath home) with
    | .ok c => .ok (.homeKubeconfig, c)
    | .error e => .error ("error loading kubernetes configuration: " ++ e)

/-- C10: the example's `run()` surfaces a Kubernetes-configuration error
only when both the in-cluster configuration and the fallback to the
`$HOME/.kube/config` file fail; an in-cluster success is used as-is (the
file is not consulted), an in-cluster failure alone is not surfaced, and
the fallback file is tried exactly second. -/
theorem kubeconfig_fallback_order {C : Type}
    (inClusterResult : Except String C)
    (loadFile : String → Except String C) (home : String) :
    (∀ c, inClusterResult = .ok c →
      loadKubeConfig inClusterResult loadFile home = .ok (.inCluster, c)) ∧
    (∀ e c, inClusterResult = .error e →
      loadFile (kubeconfigPath home) = .ok c →
      loadKubeConfig inClusterResult loadFile home =
        .ok (.homeKubeconfig, c)) ∧
    (∀ e e', inClusterResult = .error e →
      loadFile (kubeconfigPath home) = .error e' →
      loadKubeConfig inClusterResult loadFile home =
        .error ("error loading kubernetes configuration: " ++ e')) := by
  refine ⟨?_, ?_, ?_⟩
  · intro c hc
    simp [loadKubeConfig, hc]
  · intro e c hc hf
    simp [loadKubeConfig, hc, hf]
  · intro e e' hc hf
    simp [loadKubeConfig, hc, hf]

/-- Witness for C10: with a failing in-cluster lookup and a succeeding
file lookup, the configuration comes from the home kubeconfig and no
error is surfaced. -/
theorem kubeconfig_fallback_order_witness :
    loadKubeConfig (Except.error "no cluster")
      (fun _ => Except.ok "filecfg") "/home/u" =
      .ok (.homeKubeconfig, "filecfg") :=
  (kubeconfig_fallback_order (Except.error "no cluster")
      (fun _ => Except.ok "filecfg") "/home/u").2.1
    "no cluster" "filecfg" rfl rfl

end Kooper
